import Mathlib

/-!
Shallow embedding of the Discord design-intake agent
(`src/agents/design/agent.py`, class `DesignAgent`) and of the project-matching
skill (`src/agents/design/skills/match_project.py`, class `MatchProjectSkill`),
together with theorems settling the specification claims about the intake
state machine, its thread-state store, the deadline normalizer and the
project matcher.

Modelling conventions:
* Python `datetime.date` values become `PyDate` (year/month/day as `Nat`,
  compared lexicographically, exactly as Python compares dates).
* Python `None` becomes `Option.none`; Python truthiness of strings
  (`if x:` where `x` is `None` or a string) is `optTruthy`.
* The persisted state store (a JSON object keyed by stringified thread id)
  becomes `StateStore := String -> Option ThreadRecord`.
* External collaborators (Discord transport, the LLM, the Notion client,
  the CSV mapping file) are modelled by an `Env` record carrying the values
  those calls would return during one turn of `DesignAgent.handle`; a `none`
  where the Python call can raise or return `None` models that failure.
* Source strings are copied byte-for-byte from the repository files,
  including their (double-encoded) non-ASCII bytes.
* Character-level string operations (`str.lower`, the regex `[^\w\s]`)
  are modelled on the ASCII range, which covers every string the agent
  compares against; `\w` keeps letters, digits and the underscore exactly
  as in Python.
-/

/-- Python truthiness of an optional string: `None` and `""` are falsy. -/
def optTruthy : Option String → Bool
  | none => false
  | some s => s ≠ ""

/-- Substring test over the underlying character lists: models Python
`pat in s`. -/
def listContainsSub (hay pat : List Char) : Bool :=
  (List.range (hay.length + 1)).any (fun i => pat.isPrefixOf (hay.drop i))

/-- Models Python `pat in s` for strings. -/
def strContains (s pat : String) : Bool :=
  listContainsSub s.data pat.data

/-- Models Python `str.lower()` character by character (kernel-computable,
unlike `String.toLower`). -/
def strLower (s : String) : String :=
  String.mk (s.data.map Char.toLower)

/-! ## Dates: `datetime.date`, `calendar.monthrange`, `DesignAgent._safe_date` -/

/-- A Python `datetime.date` value (year, month, day). -/
structure PyDate where
  year : Nat
  month : Nat
  day : Nat
deriving DecidableEq, Repr

/-- Python compares dates lexicographically on (year, month, day). -/
def PyDate.Lt (a b : PyDate) : Prop :=
  a.year < b.year ∨ (a.year = b.year ∧
    (a.month < b.month ∨ (a.month = b.month ∧ a.day < b.day)))

instance (a b : PyDate) : Decidable (PyDate.Lt a b) := by
  unfold PyDate.Lt; infer_instance

/-- Non-strict date order. -/
def PyDate.Le (a b : PyDate) : Prop := PyDate.Lt a b ∨ a = b

instance (a b : PyDate) : Decidable (PyDate.Le a b) := by
  unfold PyDate.Le; infer_instance

/-- Models `calendar.isleap`. -/
def isLeapYear (y : Nat) : Bool :=
  y % 4 = 0 && (y % 100 ≠ 0 || y % 400 = 0)

/-- Models `calendar.monthrange(y, m)[1]` for months 1..12 (the only months
the agent can produce, since parsed dates are valid); other month numbers
are given the total default 31. -/
def monthLen (y m : Nat) : Nat :=
  if m = 2 then (if isLeapYear y then 29 else 28)
  else if m = 4 ∨ m = 6 ∨ m = 9 ∨ m = 11 then 30
  else 31

/-- Models `DesignAgent._safe_date`: clamp the day to the last valid day of
the month. -/
def safe_date (y m d : Nat) : PyDate :=
  ⟨y, m, min d (monthLen y m)⟩

/-- A date whose day component does not exceed the month length (every real
`datetime.date` satisfies this). -/
def PyDate.Valid (d : PyDate) : Prop :=
  1 ≤ d.month ∧ d.month ≤ 12 ∧ 1 ≤ d.day ∧ d.day ≤ monthLen d.year d.month

instance (d : PyDate) : Decidable (PyDate.Valid d) := by
  unfold PyDate.Valid; infer_instance

/-! ## ISO parsing and formatting: `DesignAgent._parse_iso_date`, `date.isoformat` -/

/-- Numeric value of a decimal digit character. -/
def dval (c : Char) : Nat := c.toNat - 48

/-- Parse exactly `YYYY-MM-DD` with calendar validation: models
`datetime.date.fromisoformat`. -/
def parseDateChars : List Char → Option PyDate
  | [a, b, c, d, s1, e, f, s2, g, h] =>
    if s1 = '-' ∧ s2 = '-' ∧ ([a, b, c, d, e, f, g, h].all Char.isDigit) then
      let y := 1000 * dval a + 100 * dval b + 10 * dval c + dval d
      let m := 10 * dval e + dval f
      let dd := 10 * dval g + dval h
      if 1 ≤ y ∧ 1 ≤ m ∧ m ≤ 12 ∧ 1 ≤ dd ∧ dd ≤ monthLen y m then
        some ⟨y, m, dd⟩
      else none
    else none
  | _ => none

/-- Validate the time part accepted after the separator by
`datetime.fromisoformat`: `HH`, `HH:MM` or `HH:MM:SS` (fractional seconds
and offsets are not modelled). -/
def validTimeChars : List Char → Bool
  | [h1, h2] =>
    h1.isDigit && h2.isDigit && 10 * dval h1 + dval h2 < 24
  | [h1, h2, c1, m1, m2] =>
    h1.isDigit && h2.isDigit && c1 = ':' && m1.isDigit && m2.isDigit &&
      10 * dval h1 + dval h2 < 24 && 10 * dval m1 + dval m2 < 60
  | [h1, h2, c1, m1, m2, c2, s1, s2] =>
    h1.isDigit && h2.isDigit && c1 = ':' && m1.isDigit && m2.isDigit &&
      c2 = ':' && s1.isDigit && s2.isDigit &&
      10 * dval h1 + dval h2 < 24 && 10 * dval m1 + dval m2 < 60 &&
      10 * dval s1 + dval s2 < 60
  | _ => false

/-- Models `DesignAgent._parse_iso_date`: first try `date.fromisoformat`
(strict `YYYY-MM-DD`), then fall back to `datetime.fromisoformat(...).date()`
(a date, one separator character, then a time part). Returns `none` when
unparsable. -/
def parse_iso_date (s : String) : Option PyDate :=
  match parseDateChars (s.data.take 10) with
  | none => none
  | some d =>
    if s.data.length = 10 then some d
    else if s.data.length ≥ 11 && validTimeChars (s.data.drop 11) then some d
    else none

/-- Zero-padded two-digit decimal rendering. -/
def pad2 (n : Nat) : String :=
  if n < 10 then "0" ++ toString n else toString n

/-- Zero-padded four-digit decimal rendering. -/
def pad4 (n : Nat) : String :=
  if n < 10 then "000" ++ toString n
  else if n < 100 then "00" ++ toString n
  else if n < 1000 then "0" ++ toString n
  else toString n

/-- Models Python `date.isoformat()`. -/
def PyDate.isoformat (d : PyDate) : String :=
  pad4 d.year ++ "-" ++ pad2 d.month ++ "-" ++ pad2 d.day

/-! ## `DesignAgent._normalize_deadline` -/

/-- Year-correction logic of `DesignAgent._normalize_deadline`, applied to an
already parsed date and the reference date (the date component of the
reference datetime). Follows the source branch for branch. -/
def normalizeParsedDeadline (parsed referenceDate : PyDate) : PyDate :=
  if parsed.year < referenceDate.year then
    let candidate := safe_date referenceDate.year parsed.month parsed.day
    if candidate.Lt referenceDate then
      safe_date (referenceDate.year + 1) parsed.month parsed.day
    else candidate
  else if parsed.year = referenceDate.year then
    let candidate := safe_date parsed.year parsed.month parsed.day
    if candidate.Lt referenceDate then
      safe_date (referenceDate.year + 1) parsed.month parsed.day
    else candidate
  else if parsed.year = referenceDate.year + 1 then
    parsed
  else
    let candidate := safe_date referenceDate.year parsed.month parsed.day
    if candidate.Lt referenceDate then
      safe_date (referenceDate.year + 1) parsed.month parsed.day
    else candidate

/-- Models `DesignAgent._normalize_deadline`. The Python guard
`if not deadline` sends both `None` and the empty string to `None`;
an unparsable non-empty string is returned unchanged; a parsed date is
year-corrected and rendered with `isoformat`. -/
def normalize_deadline (deadline : Option String) (referenceDate : PyDate) :
    Option String :=
  match deadline with
  | none => none
  | some s =>
    if s = "" then none
    else
      match parse_iso_date s with
      | none => some s
      | some parsed => some (normalizeParsedDeadline parsed referenceDate).isoformat

/-! ## Project matching

Two implementations exist in the repository: `DesignAgent._canonical_project`
/ `_match_project_option` (whitespace-collapsing) and
`MatchProjectSkill._canonical_project` / `execute` (regex-based). Both are
embedded. -/

/-- Helper of `splitWs`: accumulate the current word (reversed) while
walking the characters. -/
def splitWsAux : List Char → List Char → List (List Char)
  | [], acc => if acc.isEmpty then [] else [acc.reverse]
  | c :: rest, acc =>
    if c.isWhitespace then
      if acc.isEmpty then splitWsAux rest []
      else acc.reverse :: splitWsAux rest []
    else splitWsAux rest (c :: acc)

/-- Python `str.split()` with no argument: split on whitespace runs,
dropping empty pieces. -/
def splitWs (s : String) : List String :=
  (splitWsAux s.data []).map String.mk

/-- Models `DesignAgent._canonical_project`:
`" ".join((value or "").strip().lower().split())`. -/
def canonical_project (value : String) : String :=
  String.intercalate " " (splitWs (strLower value))

/-- Canonical-form-to-option lookup: models the Python dict comprehension
`{canon(opt): opt for opt in options}` followed by `.get(key)` — on duplicate
canonical forms the later option overwrites the earlier one, so the last
matching option wins. -/
def byCanonGet (canon : String → String) (options : List String)
    (key : String) : Option String :=
  (options.filter (fun o => canon o = key)).getLast?

/-- Models `DesignAgent._match_project_option`. -/
def match_project_option (projectRaw : Option String) (options : List String) :
    Option String :=
  if optTruthy projectRaw = false then none
  else
    let candidate := canonical_project (projectRaw.getD "")
    if candidate = "" ∨ candidate ∈ ["sin proyecto", "ninguno", "n/a"] then none
    else byCanonGet canonical_project options candidate

/-- A regex word character in the ASCII range: Python `\w` keeps letters,
digits and the underscore. -/
def wordChar (c : Char) : Bool := c.isAlphanum || c = '_'

/-- Models `MatchProjectSkill._canonical_project`:
`re.sub(r'[^\w\s]', '', value.lower()).replace(' ', '')` — drop characters
that are neither word characters nor whitespace, then drop space characters
(only `' '`; other whitespace such as tabs survives). -/
def canonical_project_skill (value : String) : String :=
  if value = "" then ""
  else
    let noSpecial := (strLower value).data.filter
      (fun c => wordChar c || c.isWhitespace)
    String.mk (noSpecial.filter (fun c => c ≠ ' '))

/-- Models the matching logic of `MatchProjectSkill.execute` once the valid
options are in hand: empty input short-circuits, the canonicalized negative
set rejects, otherwise the canonical dict lookup decides. -/
def match_project_skill (projectRaw : String) (options : List String) :
    Option String :=
  if projectRaw = "" then none
  else
    let candidate := canonical_project_skill projectRaw
    if candidate ∈ ["sinproyecto", "ninguno", "na", "none"] then none
    else byCanonGet canonical_project_skill options candidate

/-- Modelled from the spec claim C5 (not from the source): canonicalization
that lowercases, strips all whitespace and strips punctuation/special
characters, retaining letters and digits only. Used to state what the claim
asserts, for comparison with `canonical_project_skill`. -/
def claimCanonicalProject (value : String) : String :=
  String.mk ((strLower value).data.filter Char.isAlphanum)

/-- Modelled from the spec claim C5 (not from the source): the matcher the
claim describes — `null` on empty canonical form or the negative set, else
the option whose canonical form exactly equals the input's canonical form. -/
def claimMatchProject (raw : String) (options : List String) : Option String :=
  let c := claimCanonicalProject raw
  if c = "" ∨ c ∈ ["sinproyecto", "ninguno", "na", "none"] then none
  else options.find? (fun o => claimCanonicalProject o = c)

/-- Character filter of the amended C5 claim: letters, digits and the
underscore survive, as does whitespace other than the space character. -/
def keepCharFixed (c : Char) : Bool :=
  c.isAlphanum || c = '_' || (c.isWhitespace && !(c = ' '))

/-- Canonicalization as amended for claim C5, written independently of
`canonical_project_skill` (single fold, one-pass character filter). -/
def canonicalProjectFixed (value : String) : String :=
  String.mk ((strLower value).data.foldr
    (fun c acc => if keepCharFixed c then c :: acc else acc) [])

/-- The matcher described by the amended claim C5: reject empty input, reject
the canonicalized negative set, otherwise return the last option (scanning
from the end) whose canonical form exactly equals the input's canonical
form. -/
def matchProjectFixed (raw : String) (options : List String) : Option String :=
  if raw = "" then none
  else
    let c := canonicalProjectFixed raw
    if c = "sinproyecto" ∨ c = "ninguno" ∨ c = "na" ∨ c = "none" then none
    else options.reverse.find? (fun o => canonicalProjectFixed o = c)

/-! ## Thread state store

`DesignAgent.state_store` is a JSON object keyed by stringified thread id.
Each value is a dict written only by `_set_thread_state`, so it can carry the
keys `state`, `notion_url`, `notion_errors` and `updated_at`. -/

/-- One persisted per-thread record; `none` models an absent key. -/
structure ThreadRecord where
  state : Option String := none
  notion_url : Option String := none
  notion_errors : Option Nat := none
  updated_at : Option String := none
deriving DecidableEq, Repr

/-- Python dict truthiness: the empty dict is falsy. -/
def ThreadRecord.isEmptyRec (r : ThreadRecord) : Bool :=
  r.state.isNone && r.notion_url.isNone && r.notion_errors.isNone &&
    r.updated_at.isNone

/-- The persisted store: stringified thread id to record. -/
def StateStore : Type := String → Option ThreadRecord

/-- Python `str(thread_id)`, the store key. -/
def toKey (threadId : Nat) : String := toString threadId

/-- Models `DesignAgent._get_thread_state`: `self.state_store.get(str(id), {})`. -/
def get_thread_state (store : StateStore) (threadId : Nat) : ThreadRecord :=
  (store (toKey threadId)).getD {}

/-- Models `DesignAgent._set_thread_state`: copy the given fields, stamp
`updated_at` with the current time, and store the result under the thread's
key (replacing whatever was there; `_save_state` persists synchronously). -/
def set_thread_state (store : StateStore) (threadId : Nat)
    (data : ThreadRecord) (now : String) : StateStore :=
  fun k => if k = toKey threadId then some { data with updated_at := some now }
           else store k

/-- Models `DesignAgent._clear_thread_state`: pop the key and persist. -/
def clear_thread_state (store : StateStore) (threadId : Nat) : StateStore :=
  fun k => if k = toKey threadId then none else store k

/-! ## The environment of one `DesignAgent.handle` turn -/

/-- One message as seen through the Conversation Transport (`history`). -/
structure Msg where
  id : Nat
  isBot : Bool
  content : String
deriving DecidableEq, Repr

/-- The `data` object of the classifier's JSON reply; `none` models an
absent key (`dict.get`). -/
structure LlmData where
  project : Option String := none
  title : Option String := none
  deadline : Option String := none
deriving DecidableEq, Repr

/-- The classifier's parsed JSON reply. `action` and `feedback` carry the
defaults `"wait"` / `""` that `response_data.get` applies for absent keys. -/
structure LlmResp where
  action : String := "wait"
  feedback : String := ""
  data : LlmData := {}
deriving DecidableEq, Repr

/-- The second classifier reply used by the `validate_edit` branch;
`es_valido` is the Python truthiness of `resp_2.get("es_valido")`, and
`feedback` carries `resp_2.get("feedback")` (the model supplies a string;
the unkeyed case is out of modelled scope). -/
structure LlmResp2 where
  es_valido : Bool := false
  feedback : String := ""
  data : LlmData := {}
deriving DecidableEq, Repr

/-- Everything one turn of `DesignAgent.handle` reads from the outside
world. A `none` in a field backing a fallible call models that the call
raised (for the LLM / starter fetch) or returned `None` (for Notion). -/
structure Env where
  threadId : Nat
  messageContent : String := ""
  guildId : Option Nat := none
  jumpUrl : String := ""
  channelCreatedAt : Option Nat := none
  bootTime : Nat := 0
  history : List Msg := []
  csvUrl : Option String := none
  csvStatus : Option String := none
  notionFindUrl : Option String := none
  starterNotionUrl : Option String := none
  projectOptions : List String := []
  starterContent : Option String := none
  referenceDate : PyDate := ⟨2026, 1, 1⟩
  llm1 : Option LlmResp := none
  llm2 : Option LlmResp2 := none
  createResult : Option String := none
  requestChannel : Bool := true
  deleteOk : Bool := true
  purgeOk : Bool := true
  now : String := ""

/-- A reply sent to the thread channel: plain text, or the embed that
`send_status` produces for a final approval. -/
structure Sent where
  isEmbed : Bool
  text : String
deriving DecidableEq, Repr

/-- Plain `channel.send`. -/
def plainSent (s : String) : Sent := ⟨false, s⟩

/-- The green-embed reply of `send_status` with `final_approved=True`. -/
def embedSent (s : String) : Sent := ⟨true, s⟩

/-- Models `DesignAgent.send_status`: embed only for a valid final
approval, plain text otherwise. -/
def sendStatus (isValid : Bool) (text : String) (finalApproved : Bool) : Sent :=
  if finalApproved && isValid then embedSent text else plainSent text

/-- One invocation of `self.bot.notion.create_task`, with its arguments and
the reference it returned (`none`/empty on failure). -/
structure CreateCall where
  title : String
  project : String
  deadline : Option String
  content : String
  result : Option String
deriving DecidableEq, Repr

/-- The observable outcome of one `handle` turn. -/
structure TurnResult where
  store : StateStore
  sent : List Sent := []
  notified : List String := []
  creates : List CreateCall := []
  deletedIds : List Nat := []
  llmCalled : Bool := false
  raised : Bool := false

/-- The result of a turn that only returns (terminal-state short-circuit). -/
def noopResult (store : StateStore) : TurnResult := { store := store }

/-! ## Message constants (byte-for-byte from `agent.py`) -/

/-- The generic technical-difficulty reply sent when the LLM call or its
JSON parse raises. -/
def techDifficultyMsg : String :=
  "‚ö†Ô∏è Lo siento, estoy teniendo problemas t√©cnicos para procesar tu solicitud en este momento. Por favor, int√©ntalo m√°s tarde o contacta a soporte."

/-- The already-created reply of the approve branch, around the existing
reference. -/
def alreadyCreatedMsg (url : String) : String :=
  "Mi trabajo aqu√≠ est√° completo. La tarea ya fue creada en Notion: " ++ url ++
    "\n\nEl equipo de dise√±o pronto comenzar√° a trabajar en tu solicitud usando este hilo. ¬°Gracias!"

/-- The fixed default title used by the approve and validate_edit branches
when the extracted data carries no title. -/
def defaultDesignTitle : String := "Nueva Tarea de Dise√±o"

/-- Error reply of the approve branch when Notion task creation returns a
falsy reference. -/
def approveCreateErrorMsg : String :=
  "‚ùå Hubo un error al crear la tarea en Notion. Por favor intenta de nuevo o contacta al equipo de soporte."

/-- Success reply of the approve branch: classifier feedback plus the
created reference. -/
def approveSuccessMsg (feedback url : String) : String :=
  feedback ++ "\n\n‚úÖ He creado la tarea en Notion por ti: " ++ url

/-- Success reply of the create_task branch. -/
def createTaskSuccessMsg (url : String) : String :=
  "‚úÖ Tarea creada: " ++ url ++
    "\nPor favor edita tu post original para incluir este link y av√≠same cuando est√© listo."

/-- Error reply of the create_task branch below the failure threshold. -/
def createTaskErrorMsg : String :=
  "‚ùå Error creando la tarea en Notion. Int√©ntalo de nuevo o revisa los datos."

/-- Manual-fallback reply of the create_task branch at the failure
threshold. -/
def manualFallbackMsg : String :=
  "‚ùå No he podido crear la tarea autom√°ticamente tras varios intentos.\nPor favor, usa este formulario manual para darla de alta:\nhttps://www.notion.so/emerald-dev/2fdd14a8642b80edb194deed54c6449e?pvs=106\n\nUna vez creada, pega el link aqu√≠."

/-- Reply of the create_task branch when the title is missing or falsy. -/
def titleRepromptMsg : String :=
  "No pude entender el t√≠tulo de la tarea. ¬øPodr√≠as repetirlo?"

/-- Success reply suffix of the validate_edit branch. -/
def veSuccessSuffix (url : String) : String :=
  "\n\n‚úÖ He creado la tarea en Notion autom√°ticamente: " ++ url

/-- Reply of the validate_edit branch when fetching or re-validating the
starter message raises. -/
def starterReadErrorMsg : String := "No pude leer el mensaje original."

/-- Opening reply of the delete_history branch. -/
def cleaningMsg : String := "Limpiando conversaci√≥n..."

/-- Question sent after a successful validate_edit re-validation. -/
def deleteOfferMsg : String :=
  "¬°Genial! ¬øQuieres borrar nuestros mensajes de ayuda? (Responde \x27s√≠\x27)"

/-- Models `DesignAgent._request_project`'s clarification message. -/
def requestProjectMsg (projectRaw : Option String) (options : List String) :
    String :=
  let base :=
    if optTruthy projectRaw then
      "No encontr√© el proyecto \"" ++ projectRaw.getD "" ++
        "\" en Notion. Necesito el Nombre del Proyecto exacto."
    else "Necesito el Nombre del Proyecto exacto en Notion para crear la tarea."
  let msg :=
    if options.isEmpty then base
    else
      let preview := String.intercalate ", " (options.take 20)
      let preview2 :=
        if options.length > 20 then
          preview ++ " (+" ++ toString (options.length - 20) ++ " m√°s)"
        else preview
      base ++ "\n\nProyectos disponibles: " ++ preview2
  msg ++ "\n\nTip: la pr√≥xima vez incluye el nombre exacto del proyecto en tu mensaje para evitar demoras."

/-- The approve branch's notification to the design-team request channel. -/
def approveNotifyMsg (project title url threadUrl : String) : String :=
  "<@&1458178611382325412> **Nueva Solicitud de Dise√±o Aprobada**\n" ++
    "üìÇ **Proyecto:** " ++ project ++ "\n" ++
    "üìù **Tarea:** " ++ title ++ "\n" ++
    "üîó **Notion:** " ++ url ++ "\n" ++
    "üí¨ **Hilo:** " ++ threadUrl

/-- The validate_edit branch's notification to the design-team request
channel (sent whether or not creation succeeded). -/
def veNotifyMsg (project title : String) (urlOpt : Option String)
    (threadUrl : String) : String :=
  "<@&1458178611382325412> **Nueva Solicitud de Dise√±o Aprobada (Post Editado)**\n" ++
    "üìÇ **Proyecto:** " ++ project ++ "\n" ++
    "üìù **Tarea:** " ++ title ++ "\n" ++
    "üîó **Notion:** " ++
      (if optTruthy urlOpt then urlOpt.getD "" else "Error creando Notion") ++ "\n" ++
    "üí¨ **Hilo:** " ++ threadUrl

/-! ## `DesignAgent.handle` -/

/-- The hardcoded exception allow-list `existing_exception_thread_ids`. -/
def existingExceptionThreadIds : List Nat := [1470846699198222489]

/-- Models `DesignAgent._thread_link`. -/
def threadLink (env : Env) : String :=
  match env.guildId with
  | some g =>
    "https://discord.com/channels/" ++ toString g ++ "/" ++
      toString env.threadId ++ "/" ++ toString env.threadId
  | none => env.jumpUrl

/-- Models `DesignAgent._recover_state_from_history`: walk the newest
(at most 10) messages, and at the first bot-authored one map known marker
phrases to a state; any other content (or no bot message) yields `"init"`. -/
def recover_state_from_history (history : List Msg) : String :=
  match (history.take 10).find? (fun m => m.isBot) with
  | none => "init"
  | some m =>
    if strContains m.content "borrar el historial" ||
        strContains m.content "borrar nuestros mensajes" then "waiting_delete"
    else if strContains m.content "Nombre del Proyecto" then "waiting_task_details"
    else if strContains m.content "He creado la tarea en Notion" then "approved"
    else "init"

/-- True when the thread's channel predates this process's boot time
(`message.channel.created_at and message.channel.created_at < self.boot_time`). -/
def createdBeforeBoot (env : Env) : Bool :=
  match env.channelCreatedAt with
  | some t => t < env.bootTime
  | none => false

/-- The `action == "approve"` branch of `DesignAgent.handle`. -/
def approveBranch (env : Env) (store : StateStore) (resp : LlmResp) :
    TurnResult :=
  let tid := env.threadId
  let existingUrl := (get_thread_state store tid).notion_url
  if optTruthy existingUrl then
    { store := set_thread_state store tid
        { state := some "approved", notion_url := existingUrl } env.now,
      sent := [sendStatus true (alreadyCreatedMsg (existingUrl.getD "")) true],
      llmCalled := true }
  else
    let projectRaw := resp.data.project
    let title := resp.data.title.getD defaultDesignTitle
    let threadUrl := threadLink env
    let deadline := normalize_deadline resp.data.deadline env.referenceDate
    let options := env.projectOptions
    match match_project_option projectRaw options with
    | none =>
      { store := set_thread_state store tid
          { state := some "waiting_task_details" } env.now,
        sent := [plainSent (requestProjectMsg projectRaw options)],
        llmCalled := true }
    | some project =>
      let fullContent := env.starterContent.getD env.messageContent
      let urlOpt := env.createResult
      let call : CreateCall :=
        { title := title, project := project, deadline := deadline,
          content := "Solicitud original en Discord: " ++ threadUrl ++
            "\n\nDescripci√≥n:\n" ++ fullContent,
          result := urlOpt }
      if optTruthy urlOpt then
        let url := urlOpt.getD ""
        { store := set_thread_state store tid
            { state := some "approved", notion_url := some url } env.now,
          sent := [sendStatus true (approveSuccessMsg resp.feedback url) true],
          notified :=
            if env.requestChannel then
              [approveNotifyMsg project title url threadUrl]
            else [],
          creates := [call],
          llmCalled := true }
      else
        { store := store,
          sent := [plainSent approveCreateErrorMsg],
          creates := [call],
          llmCalled := true }

/-- The `action == "create_task"` branch of `DesignAgent.handle`. -/
def createTaskBranch (env : Env) (store : StateStore) (resp : LlmResp) :
    TurnResult :=
  let tid := env.threadId
  let projectRaw := resp.data.project
  let titleOpt := resp.data.title
  let deadline := normalize_deadline resp.data.deadline env.referenceDate
  let options := env.projectOptions
  let projectOpt := match_project_option projectRaw options
  if optTruthy projectOpt && optTruthy titleOpt then
    let project := projectOpt.getD ""
    let title := titleOpt.getD ""
    let threadUrl := threadLink env
    let urlOpt := env.createResult
    let call : CreateCall :=
      { title := title, project := project, deadline := deadline,
        content := "Creado manualmente desde hilo: " ++ threadUrl,
        result := urlOpt }
    if optTruthy urlOpt then
      { store := set_thread_state store tid
          { state := some "waiting_edit" } env.now,
        sent := [plainSent (createTaskSuccessMsg (urlOpt.getD ""))],
        creates := [call],
        llmCalled := true }
    else
      let currentErrors := (get_thread_state store tid).notion_errors.getD 0 + 1
      if currentErrors ≥ 2 then
        { store := set_thread_state store tid
            { state := some "waiting_edit", notion_errors := some 0 } env.now,
          sent := [plainSent manualFallbackMsg],
          creates := [call],
          llmCalled := true }
      else
        let prev := get_thread_state store tid
        let stateData :=
          if prev.isEmptyRec then
            ({ state := some "waiting_task_details" } : ThreadRecord)
          else prev
        { store := set_thread_state store tid
            { stateData with notion_errors := some currentErrors } env.now,
          sent := [plainSent createTaskErrorMsg],
          creates := [call],
          llmCalled := true }
  else
    if optTruthy projectOpt = false then
      { store := set_thread_state store tid
          { state := some "waiting_task_details" } env.now,
        sent := [plainSent (requestProjectMsg projectRaw options)],
        llmCalled := true }
    else
      { store := set_thread_state store tid
          { state := some "waiting_task_details" } env.now,
        sent := [plainSent titleRepromptMsg],
        llmCalled := true }

/-- The `action == "validate_edit"` branch of `DesignAgent.handle`. The
whole branch body is wrapped in `try/except` in the source; a raising
starter fetch or second LLM call lands in the catch-all reply. -/
def validateEditBranch (env : Env) (store : StateStore) : TurnResult :=
  let tid := env.threadId
  match env.starterContent, env.llm2 with
  | some starterC, some resp2 =>
    if resp2.es_valido then
      let projectRaw := resp2.data.project
      let title := resp2.data.title.getD defaultDesignTitle
      let deadline := normalize_deadline resp2.data.deadline env.referenceDate
      let threadUrl := threadLink env
      let options := env.projectOptions
      match match_project_option projectRaw options with
      | none =>
        { store := set_thread_state store tid
            { state := some "waiting_task_details" } env.now,
          sent := [plainSent (requestProjectMsg projectRaw options)],
          llmCalled := true }
      | some project =>
        let urlOpt := env.createResult
        let call : CreateCall :=
          { title := title, project := project, deadline := deadline,
            content := "Solicitud original en Discord (Intake): " ++ threadUrl ++
              "\n\nContenido:\n" ++ starterC,
            result := urlOpt }
        let notified :=
          if env.requestChannel then
            [veNotifyMsg project title urlOpt threadUrl]
          else []
        let fbFinal :=
          if optTruthy urlOpt then
            resp2.feedback ++ veSuccessSuffix (urlOpt.getD "")
          else resp2.feedback
        { store := set_thread_state store tid
            { state := some "waiting_delete" } env.now,
          sent := [sendStatus true fbFinal true, plainSent deleteOfferMsg],
          notified := notified,
          creates := [call],
          llmCalled := true }
    else
      { store := store,
        sent := [sendStatus false resp2.feedback false],
        llmCalled := true }
  | _, _ =>
    { store := store,
      sent := [plainSent starterReadErrorMsg],
      llmCalled := true }

/-- The `action == "delete_history"` branch of `DesignAgent.handle`:
delete all non-starter messages among the newest 100 (bulk delete, then a
filtered purge if the bulk delete raises); a raising purge propagates out
of `handle` before the state is cleared. -/
def deleteHistoryBranch (env : Env) (store : StateStore) : TurnResult :=
  let tid := env.threadId
  let toDelete := ((env.history.take 100).filter (fun m => m.id ≠ tid)).map Msg.id
  if toDelete.isEmpty then
    { store := clear_thread_state store tid,
      sent := [plainSent cleaningMsg],
      llmCalled := true }
  else if env.deleteOk then
    { store := clear_thread_state store tid,
      sent := [plainSent cleaningMsg],
      deletedIds := toDelete,
      llmCalled := true }
  else if env.purgeOk then
    { store := clear_thread_state store tid,
      sent := [plainSent cleaningMsg],
      deletedIds := toDelete,
      llmCalled := true }
  else
    { store := store,
      sent := [plainSent cleaningMsg],
      llmCalled := true,
      raised := true }

/-- Action dispatch of `DesignAgent.handle` (steps 4-5): invoke the
classifier; on failure reply and stop without touching state; otherwise
branch on the returned action string in source order. -/
def dispatchAction (env : Env) (store : StateStore) : TurnResult :=
  match env.llm1 with
  | none =>
    { store := store, sent := [plainSent techDifficultyMsg], llmCalled := true }
  | some resp =>
    let tid := env.threadId
    if resp.action = "approve" then approveBranch env store resp
    else if resp.action = "synthesize" then
      { store := set_thread_state store tid { state := some "waiting_edit" } env.now,
        sent := [plainSent resp.feedback],
        llmCalled := true }
    else if resp.action = "create_task" then createTaskBranch env store resp
    else if resp.action = "validate_edit" then validateEditBranch env store
    else if resp.action = "delete_history" then deleteHistoryBranch env store
    else if resp.action = "request_edit" then
      { store := set_thread_state store tid { state := some "waiting_edit" } env.now,
        sent := [sendStatus false resp.feedback false],
        llmCalled := true }
    else if resp.action = "handoff" then
      { store := store, sent := [plainSent resp.feedback], llmCalled := true }
    else
      { store := store,
        sent := if resp.feedback ≠ "" then [plainSent resp.feedback] else [],
        llmCalled := true }

/-- The recovery / double-check block run when the resolved state is
`"init"` (source lines 264-316): history recovery, CSV mapping, Notion API
reverse lookup, starter-link scan, boot-time suppression. `Sum.inl` is an
early return; `Sum.inr` continues into the classifier with the updated
store and state. -/
def initBlock (env : Env) (store : StateStore) :
    TurnResult ⊕ (StateStore × String) :=
  let tid := env.threadId
  let recovered := recover_state_from_history env.history
  if recovered ≠ "init" ∧ recovered = "approved" then
    Sum.inl (noopResult
      (set_thread_state store tid { state := some recovered } env.now))
  else
    let store1 :=
      if recovered ≠ "init" then
        set_thread_state store tid { state := some recovered } env.now
      else store
    let cs1 := if recovered ≠ "init" then recovered else "init"
    if optTruthy env.csvUrl then
      Sum.inl (noopResult (set_thread_state store1 tid
        { state := some "approved", notion_url := env.csvUrl } env.now))
    else if env.csvStatus = some "ignored" then
      Sum.inl (noopResult (set_thread_state store1 tid
        { state := some "ignored_existing" } env.now))
    else if env.guildId.isSome && optTruthy env.notionFindUrl then
      Sum.inl (noopResult (set_thread_state store1 tid
        { state := some "approved", notion_url := env.notionFindUrl } env.now))
    else if optTruthy env.starterNotionUrl then
      Sum.inl (noopResult (set_thread_state store1 tid
        { state := some "approved", notion_url := env.starterNotionUrl } env.now))
    else if createdBeforeBoot env && decide (tid ∉ existingExceptionThreadIds) then
      Sum.inl (noopResult (set_thread_state store1 tid
        { state := some "ignored_existing" } env.now))
    else
      Sum.inr (store1, cs1)

/-- Continuation of `handle` after the terminal-state guard: run the init
block when the state is `"init"`, then dispatch on the classifier action. -/
def handleFromInit (env : Env) (store : StateStore) (currentState : String) :
    TurnResult :=
  if currentState = "init" then
    match initBlock env store with
    | Sum.inl r => r
    | Sum.inr p => dispatchAction env p.1
  else dispatchAction env store

/-- Models one turn of `DesignAgent.handle`: resolve the persisted state,
short-circuit terminal states (with the `ignored_existing` allow-list
exception resetting to `"init"`), run recovery, classify, dispatch. -/
def handle (env : Env) (store0 : StateStore) : TurnResult :=
  let tid := env.threadId
  let currentState := (get_thread_state store0 tid).state.getD "init"
  if currentState = "approved" ∨ currentState = "ignored_existing" then
    if currentState = "ignored_existing" ∧ tid ∈ existingExceptionThreadIds then
      handleFromInit env (clear_thread_state store0 tid) "init"
    else noopResult store0
  else handleFromInit env store0 currentState

/-- Concatenated `create_task` invocations along a sequence of handled
inbound messages, each turn starting from the store the previous turn
left behind. -/
def traceCreates (envs : List Env) (store : StateStore) : List CreateCall :=
  match envs with
  | [] => []
  | e :: rest => (handle e store).creates ++ traceCreates rest (handle e store).store

/-- Number of successful Notion task creations among a list of calls
(a falsy returned reference is a failed call). -/
def successfulCreates (calls : List CreateCall) : Nat :=
  (calls.filter (fun c => optTruthy c.result)).length

/-- A classifier outcome that dispatches none of the unguarded creation
paths (`create_task`, `validate_edit`) and not the state-clearing
`delete_history` path. -/
def actionAvoidsUnguarded : Option LlmResp → Bool
  | none => true
  | some r =>
    r.action ≠ "create_task" && r.action ≠ "validate_edit" &&
      r.action ≠ "delete_history"

/-! ## Concrete fixtures used by witnesses and counterexamples -/

/-- A store with no thread records. -/
def emptyStore : StateStore := fun _ => none

/-- A turn whose classifier output is `create_task` with valid data and a
succeeding Notion call. -/
def ctEnv : Env :=
  { threadId := 5,
    llm1 := some { action := "create_task",
                   data := { project := some "Vexia", title := some "T" } },
    projectOptions := ["Vexia"],
    createResult := some "https://notion.so/abc",
    now := "t1" }

/-- A turn whose classifier output is `approve` with valid data and a
succeeding Notion call. -/
def apEnv : Env :=
  { threadId := 5,
    llm1 := some { action := "approve",
                   data := { project := some "Vexia", title := some "T" } },
    projectOptions := ["Vexia"],
    createResult := some "https://notion.so/abc",
    now := "t1" }

/-- A store holding one approved thread record with a task reference. -/
def approvedStore : StateStore :=
  fun k => if k = "5" then
    some { state := some "approved", notion_url := some "https://notion.so/x",
           updated_at := some "t0" }
  else none

/-- A store holding one pending (`waiting_edit`) record that still carries a
task reference. -/
def pendingWithUrlStore : StateStore :=
  fun k => if k = "5" then
    some { state := some "waiting_edit", notion_url := some "https://notion.so/x",
           updated_at := some "t0" }
  else none

/-- A store holding one `waiting_task_details` record without errors. -/
def pendingStore : StateStore :=
  fun k => if k = "5" then
    some { state := some "waiting_task_details", updated_at := some "t0" }
  else none

/-- A store holding one `waiting_task_details` record with one recorded
creation failure. -/
def pendingStoreErr1 : StateStore :=
  fun k => if k = "5" then
    some { state := some "waiting_task_details", notion_errors := some 1,
           updated_at := some "t0" }
  else none

/-- The thread record stored for thread 7 in `c3store`. -/
def c3rec : ThreadRecord :=
  { state := some "approved", notion_url := some "X", updated_at := some "t1" }

/-- A store holding `c3rec` under thread 7. -/
def c3store : StateStore := fun k => if k = "7" then some c3rec else none

/-- Fields passed to `set` that do not mention `notion_url`. -/
def c3fields : ThreadRecord := { state := some "waiting_edit" }

/-- A turn dispatching `delete_history` on a thread with one deletable
message, where both the bulk delete and the fallback purge fail. -/
def delFailEnv : Env :=
  { threadId := 5,
    history := [⟨9, true, "hola"⟩, ⟨5, false, "starter"⟩],
    llm1 := some { action := "delete_history" },
    deleteOk := false,
    purgeOk := false,
    now := "t1" }

/-- A recovery scenario: persisted state absent, a bot history message with
the `waiting_task_details` marker, and a CSV mapping entry with a task
reference. -/
def c9env : Env :=
  { threadId := 7,
    history := [⟨3, true, "Necesito el Nombre del Proyecto exacto en Notion para crear la tarea."⟩],
    csvUrl := some "https://notion.so/mapped",
    now := "t2" }

/-- A minimal turn for thread 5 (no classifier reply configured). -/
def env5 : Env := { threadId := 5 }

/-- An approve turn against a store that already holds a task reference. -/
def c2bEnv : Env :=
  { threadId := 5, llm1 := some { action := "approve" }, now := "t1" }

/-- An approve turn with a matched project whose Notion creation fails. -/
def apFailEnv : Env :=
  { threadId := 5,
    llm1 := some { action := "approve",
                   data := { project := some "Vexia", title := some "T" } },
    projectOptions := ["Vexia"],
    createResult := none,
    now := "t1" }

/-- A create_task turn with valid data whose Notion creation fails. -/
def ctFailEnv : Env :=
  { threadId := 5,
    llm1 := some { action := "create_task",
                   data := { project := some "Vexia", title := some "T" } },
    projectOptions := ["Vexia"],
    createResult := none,
    now := "t1" }

/-- A delete_history turn where the bulk delete fails but the fallback
purge succeeds. -/
def delPurgeEnv : Env :=
  { threadId := 5,
    history := [⟨9, true, "hola"⟩, ⟨5, false, "starter"⟩],
    llm1 := some { action := "delete_history" },
    deleteOk := false,
    purgeOk := true,
    now := "t1" }

/-- An approve turn whose extracted data has no title and whose creation
succeeds. -/
def apNoTitleEnv : Env :=
  { threadId := 5,
    llm1 := some { action := "approve", data := { project := some "Vexia" } },
    projectOptions := ["Vexia"],
    createResult := some "u1",
    now := "t1" }

/-- A validate_edit turn whose re-validation succeeds with no title. -/
def veNoTitleEnv : Env :=
  { threadId := 5,
    llm1 := some { action := "validate_edit" },
    starterContent := some "S",
    llm2 := some { es_valido := true, feedback := "ok",
                   data := { project := some "Vexia" } },
    projectOptions := ["Vexia"],
    createResult := some "u2",
    now := "t1" }

/-- A create_task turn whose extracted data has no title. -/
def ctNoTitleEnv : Env :=
  { threadId := 5,
    llm1 := some { action := "create_task", data := { project := some "Vexia" } },
    projectOptions := ["Vexia"],
    now := "t1" }

/-! ## Helper lemmas -/

theorem PyDate.le_of_not_lt {a b : PyDate} (h : ¬ PyDate.Lt a b) :
    PyDate.Le b a := by
  cases a with
  | mk y1 m1 d1 =>
    cases b with
    | mk y2 m2 d2 =>
      simp only [PyDate.Lt, PyDate.Le, PyDate.mk.injEq] at *
      omega

theorem PyDate.le_of_year_lt {a b : PyDate} (h : a.year < b.year) :
    PyDate.Le a b :=
  Or.inl (Or.inl h)

theorem PyDate.not_lt_self (a : PyDate) : ¬ PyDate.Lt a a := by
  cases a with
  | mk y m d => simp only [PyDate.Lt]; omega

theorem safe_date_year (y m d : Nat) : (safe_date y m d).year = y := rfl

theorem normalizeParsedDeadline_ge (parsed ref : PyDate) :
    PyDate.Le ref (normalizeParsedDeadline parsed ref) := by
  simp only [normalizeParsedDeadline]
  split
  · split
    · exact PyDate.le_of_year_lt (by simp [safe_date])
    · next h => exact PyDate.le_of_not_lt h
  · split
    · split
      · exact PyDate.le_of_year_lt (by simp [safe_date])
      · next h => exact PyDate.le_of_not_lt h
    · split
      · next h _ h1 => exact PyDate.le_of_year_lt (by omega)
      · split
        · exact PyDate.le_of_year_lt (by simp [safe_date])
        · next h => exact PyDate.le_of_not_lt h

theorem normalizeParsedDeadline_same_day {ref : PyDate}
    (h : ref.day ≤ monthLen ref.year ref.month) :
    normalizeParsedDeadline ref ref = ref := by
  have hc : safe_date ref.year ref.month ref.day = ref := by
    cases ref with
    | mk y m d =>
      simp only [safe_date, PyDate.mk.injEq]
      exact ⟨trivial, trivial, Nat.min_eq_left h⟩
  unfold normalizeParsedDeadline
  rw [if_neg (lt_irrefl _), if_pos rfl, hc, if_neg (PyDate.not_lt_self ref)]

/-! ## Claim C4: deadline normalization -/

/-- C4 counterexample: the empty string does not parse as a date, yet
`normalize` does not return it unchanged as the claim demands for
unparsable input — the Python guard `if not deadline` maps it to `None`. -/
theorem normalize_deadline_empty_counterexample :
    parse_iso_date "" = none ∧
      normalize_deadline (some "") ⟨2026, 2, 2⟩ ≠ some "" := by
  decide

/-- C4 (amended): `normalize(raw, ref)` returns `null` for `null` input and
also for the empty string; any other unparsable string is returned
unchanged; a parsed date is year-corrected to a date never before the
reference date; a parsed date equal to a calendar-valid reference date is
returned unchanged. -/
theorem normalize_deadline_spec :
    (∀ ref : PyDate, normalize_deadline none ref = none) ∧
    (∀ ref : PyDate, normalize_deadline (some "") ref = none) ∧
    (∀ (s : String) (ref : PyDate), s ≠ "" → parse_iso_date s = none →
      normalize_deadline (some s) ref = some s) ∧
    (∀ (s : String) (d ref : PyDate), parse_iso_date s = some d →
      normalize_deadline (some s) ref =
        some (normalizeParsedDeadline d ref).isoformat ∧
      PyDate.Le ref (normalizeParsedDeadline d ref)) ∧
    (∀ ref : PyDate, ref.day ≤ monthLen ref.year ref.month →
      normalizeParsedDeadline ref ref = ref) := by
  refine ⟨fun ref => rfl, fun ref => rfl, ?_, ?_, ?_⟩
  · intro s ref hne hparse
    simp [normalize_deadline, hne, hparse]
  · intro s d ref hparse
    have hne : s ≠ "" := by
      intro he
      rw [he] at hparse
      have hz : parse_iso_date "" = none := by decide
      rw [hz] at hparse
      exact Option.noConfusion hparse
    refine ⟨?_, normalizeParsedDeadline_ge d ref⟩
    simp [normalize_deadline, hne, hparse]
  · intro ref h
    exact normalizeParsedDeadline_same_day h

/-- Witness for `normalize_deadline_spec` at concrete inputs. -/
theorem normalize_deadline_spec_witness :
    normalize_deadline (some "pronto") ⟨2026, 2, 2⟩ = some "pronto" ∧
    normalize_deadline (some "2024-03-01") ⟨2026, 2, 2⟩ =
      some (normalizeParsedDeadline ⟨2024, 3, 1⟩ ⟨2026, 2, 2⟩).isoformat ∧
    PyDate.Le ⟨2026, 2, 2⟩ (normalizeParsedDeadline ⟨2024, 3, 1⟩ ⟨2026, 2, 2⟩) ∧
    normalizeParsedDeadline ⟨2026, 2, 2⟩ ⟨2026, 2, 2⟩ = ⟨2026, 2, 2⟩ :=
  ⟨normalize_deadline_spec.2.2.1 "pronto" ⟨2026, 2, 2⟩ (by decide) (by decide),
   (normalize_deadline_spec.2.2.2.1 "2024-03-01" ⟨2024, 3, 1⟩ ⟨2026, 2, 2⟩
     (by decide)).1,
   (normalize_deadline_spec.2.2.2.1 "2024-03-01" ⟨2024, 3, 1⟩ ⟨2026, 2, 2⟩
     (by decide)).2,
   normalize_deadline_spec.2.2.2.2 ⟨2026, 2, 2⟩ (by decide)⟩

/-! ## Claim C3: `set` replaces the stored record -/

/-- C3 counterexample: a stored `notion_url` is lost when `set` is called
with fields that do not mention it — `_set_thread_state` replaces the
record instead of merging. -/
theorem set_thread_state_merge_counterexample :
    (get_thread_state c3store 7).notion_url = some "X" ∧
    c3fields.notion_url = none ∧
    (get_thread_state (set_thread_state c3store 7 c3fields "t2") 7).notion_url
      = none := by
  decide

/-- C3 (amended): `set(thread_id, fields)` replaces the stored record with
the given fields plus a fresh `updated_at` stamp — fields absent from
`fields` are dropped, not preserved — and leaves every other key of the
store unchanged. -/
theorem set_thread_state_replaces (store : StateStore) (threadId : Nat)
    (fields : ThreadRecord) (now : String) :
    get_thread_state (set_thread_state store threadId fields now) threadId =
      { fields with updated_at := some now } ∧
    ∀ k, k ≠ toKey threadId →
      set_thread_state store threadId fields now k = store k := by
  constructor
  · simp [get_thread_state, set_thread_state]
  · intro k hk
    simp [set_thread_state, hk]

/-- Witness for `set_thread_state_replaces` at concrete inputs. -/
theorem set_thread_state_replaces_witness :
    get_thread_state (set_thread_state c3store 7 c3fields "t2") 7 =
      { c3fields with updated_at := some "t2" } ∧
    set_thread_state c3store 7 c3fields "t2" "9" = c3store "9" :=
  ⟨(set_thread_state_replaces c3store 7 c3fields "t2").1,
   (set_thread_state_replaces c3store 7 c3fields "t2").2 "9" (by decide)⟩

/-! ## Claim C5: project matching -/

theorem head_filter_eq_find (p : String → Bool) (l : List String) :
    (l.filter p).head? = l.find? p := by
  induction l with
  | nil => rfl
  | cons a t ih =>
    cases hp : p a <;> simp [List.filter_cons, List.find?_cons, hp, ih]

theorem filter_getLast_eq_reverse_find (p : String → Bool) (l : List String) :
    (l.filter p).getLast? = l.reverse.find? p := by
  rw [List.getLast?_eq_head?_reverse, ← List.filter_reverse,
    head_filter_eq_find]

theorem foldr_keep_eq_filter (p : Char → Bool) (l : List Char) :
    l.foldr (fun c acc => if p c then c :: acc else acc) [] = l.filter p := by
  induction l with
  | nil => rfl
  | cons c t ih =>
    cases hp : p c <;> simp [List.foldr, List.filter_cons, hp, ih]

theorem keepCharFixed_eq (c : Char) :
    (decide (c ≠ ' ') && (wordChar c || c.isWhitespace)) = keepCharFixed c := by
  by_cases hsp : c = ' '
  · subst hsp; decide
  · simp [wordChar, keepCharFixed, hsp, Bool.or_assoc]

theorem canonical_skill_eq_fixed (v : String) :
    canonical_project_skill v = canonicalProjectFixed v := by
  by_cases h0 : v = ""
  · subst h0; decide
  · simp only [canonical_project_skill, canonicalProjectFixed, h0, if_false,
      foldr_keep_eq_filter, List.filter_filter]
    congr 1
    apply List.filter_congr
    intro c _
    exact keepCharFixed_eq c

/-- C5 counterexample: under the canonicalization the claim describes
(letters and digits retained, everything else stripped), `"a_b"` and
`"a b"` share the canonical form `"ab"`, so the claimed matcher returns
the option — but the skill keeps the underscore (`\w`), finds no match
and returns `null`. -/
theorem match_project_skill_counterexample :
    claimCanonicalProject "a_b" = claimCanonicalProject "a b" ∧
    claimMatchProject "a_b" ["a b"] = some "a b" ∧
    match_project_skill "a_b" ["a b"] = none := by
  decide

/-- C5 (amended): the skill canonicalizes by lowercasing, dropping
characters that are neither word characters (letters, digits, underscore)
nor whitespace, then dropping space characters only; an empty raw input and
the canonicalized negative set return `null`; otherwise the last option
whose canonical form exactly equals the input's canonical form is returned
(`null` if none) — stated as equality with the independently written
`matchProjectFixed`. -/
theorem match_project_skill_spec (raw : String) (options : List String) :
    match_project_skill raw options = matchProjectFixed raw options := by
  unfold match_project_skill matchProjectFixed byCanonGet
  simp only [canonical_skill_eq_fixed]
  by_cases h0 : raw = ""
  · simp [h0]
  · by_cases hm : canonicalProjectFixed raw = "sinproyecto" ∨
        canonicalProjectFixed raw = "ninguno" ∨
        canonicalProjectFixed raw = "na" ∨ canonicalProjectFixed raw = "none"
    · simp [h0, hm]
    · simp [h0, hm, filter_getLast_eq_reverse_find]

/-! ## Claim C1: at-most-once task creation -/

theorem successfulCreates_append (a b : List CreateCall) :
    successfulCreates (a ++ b) = successfulCreates a + successfulCreates b := by
  simp [successfulCreates, List.filter_append]

theorem handle_approved_noop (env : Env) (store : StateStore)
    (h : (get_thread_state store env.threadId).state.getD "init" = "approved") :
    handle env store = noopResult store := by
  simp only [handle]
  rw [h]
  simp

theorem approveBranch_creates (env : Env) (store : StateStore) (resp : LlmResp) :
    successfulCreates (approveBranch env store resp).creates ≤ 1 ∧
    (1 ≤ successfulCreates (approveBranch env store resp).creates →
      (get_thread_state (approveBranch env store resp).store
        env.threadId).state.getD "init" = "approved") := by
  simp only [approveBranch]
  split
  · simp [successfulCreates]
  · split
    · simp [successfulCreates]
    · split
      · next hurl =>
        constructor
        · simp [successfulCreates, hurl]
        · intro _
          simp [get_thread_state, set_thread_state]
      · next hurl =>
        simp [successfulCreates, hurl]

theorem dispatchAction_restricted (env : Env) (store : StateStore)
    (hres : actionAvoidsUnguarded env.llm1 = true) :
    successfulCreates (dispatchAction env store).creates ≤ 1 ∧
    (1 ≤ successfulCreates (dispatchAction env store).creates →
      (get_thread_state (dispatchAction env store).store
        env.threadId).state.getD "init" = "approved") := by
  cases hllm : env.llm1 with
  | none => simp [dispatchAction, hllm, successfulCreates]
  | some resp =>
    rw [hllm] at hres
    simp only [actionAvoidsUnguarded, Bool.and_eq_true, decide_eq_true_eq] at hres
    obtain ⟨⟨h1, h2⟩, h3⟩ := hres
    simp only [dispatchAction, hllm]
    split
    · exact approveBranch_creates env store resp
    · split
      · simp [successfulCreates]
      · split
        · simp [successfulCreates]
        · split
          · simp [successfulCreates]
          · split
            · simp [successfulCreates]
            · simp [successfulCreates]

theorem initBlock_inl_creates (env : Env) (store : StateStore) (r : TurnResult)
    (h : initBlock env store = Sum.inl r) : r.creates = [] := by
  simp only [initBlock] at h
  split_ifs at h <;> (injection h with h; rw [← h]; rfl)

theorem handleFromInit_restricted (env : Env) (store : StateStore) (cs : String)
    (hres : actionAvoidsUnguarded env.llm1 = true) :
    successfulCreates (handleFromInit env store cs).creates ≤ 1 ∧
    (1 ≤ successfulCreates (handleFromInit env store cs).creates →
      (get_thread_state (handleFromInit env store cs).store
        env.threadId).state.getD "init" = "approved") := by
  simp only [handleFromInit]
  split
  · cases hib : initBlock env store with
    | inl r =>
      have hc := initBlock_inl_creates env store r hib
      simp [hc, successfulCreates]
    | inr p => exact dispatchAction_restricted env p.1 hres
  · exact dispatchAction_restricted env store hres

theorem handle_restricted (env : Env) (store : StateStore)
    (hres : actionAvoidsUnguarded env.llm1 = true) :
    successfulCreates (handle env store).creates ≤ 1 ∧
    (1 ≤ successfulCreates (handle env store).creates →
      (get_thread_state (handle env store).store
        env.threadId).state.getD "init" = "approved") := by
  simp only [handle]
  split
  · split
    · exact handleFromInit_restricted env _ "init" hres
    · simp [noopResult, successfulCreates]
  · exact handleFromInit_restricted env store _ hres

theorem traceCreates_approved (envs : List Env) (tid : Nat) :
    ∀ store : StateStore, (∀ e ∈ envs, e.threadId = tid) →
    (get_thread_state store tid).state.getD "init" = "approved" →
    traceCreates envs store = [] := by
  induction envs with
  | nil => intro store _ _; rfl
  | cons e rest ih =>
    intro store htid happ
    have he : e.threadId = tid := htid e (List.mem_cons_self e rest)
    have hnoop : handle e store = noopResult store :=
      handle_approved_noop e store (by rw [he]; exact happ)
    simp only [traceCreates, hnoop, noopResult]
    exact ih store (fun x hx => htid x (List.mem_cons_of_mem e hx)) happ

/-- C1 counterexample: two consecutive messages both classified as
`create_task` (with valid project and title and a working Task Store) make
`handle` invoke `create_task` twice for the same thread, creating two
records — the create_task path stores no `notion_url`, so nothing guards
the second invocation. -/
theorem handle_duplicate_creation_counterexample :
    (traceCreates [ctEnv, ctEnv] emptyStore).length = 2 ∧
    successfulCreates (traceCreates [ctEnv, ctEnv] emptyStore) = 2 := by
  decide

/-- C1 (amended): across any sequence of handled messages for one thread in
which no dispatched classifier action is `create_task`, `validate_edit` or
`delete_history`, at most one Task Store creation ever succeeds (the
`approve` path persists the reference and the terminal state, which guards
every later turn); a failed creation leaves the turn retryable, so the call
itself may recur. The excluded actions create without consulting the stored
reference (or clear the state) and can produce further records. -/
theorem handle_at_most_one_successful_creation (envs : List Env) (tid : Nat)
    (store : StateStore)
    (h : ∀ e ∈ envs, e.threadId = tid ∧ actionAvoidsUnguarded e.llm1 = true) :
    successfulCreates (traceCreates envs store) ≤ 1 := by
  induction envs generalizing store with
  | nil => simp [traceCreates, successfulCreates]
  | cons e rest ih =>
    obtain ⟨he, hract⟩ := h e (List.mem_cons_self e rest)
    have hstep := handle_restricted e store hract
    have hrest : ∀ x ∈ rest, x.threadId = tid ∧
        actionAvoidsUnguarded x.llm1 = true :=
      fun x hx => h x (List.mem_cons_of_mem e hx)
    simp only [traceCreates, successfulCreates_append]
    rcases Nat.lt_or_ge (successfulCreates (handle e store).creates) 1 with h0 | h1
    · have hz : successfulCreates (handle e store).creates = 0 := by omega
      rw [hz]
      simpa using ih (handle e store).store hrest
    · have happ := hstep.2 h1
      have hz : traceCreates rest (handle e store).store = [] :=
        traceCreates_approved rest tid (handle e store).store
          (fun x hx => (hrest x hx).1) (by rw [← he]; exact happ)
      rw [hz]
      simpa [successfulCreates] using hstep.1

/-- Witness for `handle_at_most_one_successful_creation`: two approve turns
in a row for the same thread. -/
theorem handle_at_most_one_successful_creation_witness :
    successfulCreates (traceCreates [apEnv, apEnv] emptyStore) ≤ 1 :=
  handle_at_most_one_successful_creation [apEnv, apEnv] 5 emptyStore (by decide)

/-! ## Claim C2: approved is terminal; approve is guarded -/

/-- C2: once a thread's persisted state is `approved`, `handle` performs no
Task Store call, sends nothing and leaves the store untouched; and whenever
the `approve` action is dispatched while a (non-empty) `notion_url` is
persisted for the thread, the handler sends the already-created reply
carrying that reference and never calls `create_task`. -/
theorem approved_terminal_and_approve_guard :
    (∀ (env : Env) (store : StateStore),
      (get_thread_state store env.threadId).state.getD "init" = "approved" →
      (handle env store).store = store ∧ (handle env store).creates = [] ∧
      (handle env store).sent = [] ∧ (handle env store).notified = [] ∧
      (handle env store).deletedIds = []) ∧
    (∀ (env : Env) (store : StateStore) (resp : LlmResp) (u : String),
      env.llm1 = some resp → resp.action = "approve" →
      (get_thread_state store env.threadId).notion_url = some u → u ≠ "" →
      (dispatchAction env store).creates = [] ∧
      (dispatchAction env store).sent = [embedSent (alreadyCreatedMsg u)] ∧
      (dispatchAction env store).store =
        set_thread_state store env.threadId
          { state := some "approved", notion_url := some u } env.now) := by
  constructor
  · intro env store h
    rw [handle_approved_noop env store h]
    exact ⟨rfl, rfl, rfl, rfl, rfl⟩
  · intro env store resp u hllm hact hurl hne
    simp [dispatchAction, hllm, hact, approveBranch, hurl, optTruthy, hne,
      sendStatus]

/-- Witness for `approved_terminal_and_approve_guard` at concrete inputs. -/
theorem approved_terminal_and_approve_guard_witness :
    ((handle env5 approvedStore).store = approvedStore ∧
      (handle env5 approvedStore).creates = [] ∧
      (handle env5 approvedStore).sent = []) ∧
    ((dispatchAction c2bEnv pendingWithUrlStore).creates = [] ∧
      (dispatchAction c2bEnv pendingWithUrlStore).sent =
        [embedSent (alreadyCreatedMsg "https://notion.so/x")]) :=
  ⟨⟨(approved_terminal_and_approve_guard.1 env5 approvedStore (by decide)).1,
    (approved_terminal_and_approve_guard.1 env5 approvedStore (by decide)).2.1,
    (approved_terminal_and_approve_guard.1 env5 approvedStore (by decide)).2.2.1⟩,
   ⟨(approved_terminal_and_approve_guard.2 c2bEnv pendingWithUrlStore
      { action := "approve" } "https://notion.so/x" rfl rfl (by decide)
      (by decide)).1,
    (approved_terminal_and_approve_guard.2 c2bEnv pendingWithUrlStore
      { action := "approve" } "https://notion.so/x" rfl rfl (by decide)
      (by decide)).2.1⟩⟩

/-! ## Claim C6: failures leave the state untouched -/

/-- C6: when the classifier call fails (raises or returns invalid JSON) the
handler sends the generic technical-difficulty reply and ends the turn with
the store exactly as it was at the call; and when the Task Store returns a
falsy reference during the `approve` action, the handler sends the creation
error reply and the store is likewise unchanged (retryable). -/
theorem llm_failure_and_create_failure_no_mutation :
    (∀ (env : Env) (store : StateStore), env.llm1 = none →
      (dispatchAction env store).store = store ∧
      (dispatchAction env store).sent = [plainSent techDifficultyMsg] ∧
      (dispatchAction env store).creates = []) ∧
    (∀ (env : Env) (store : StateStore) (resp : LlmResp) (p : String),
      env.llm1 = some resp → resp.action = "approve" →
      optTruthy (get_thread_state store env.threadId).notion_url = false →
      match_project_option resp.data.project env.projectOptions = some p →
      optTruthy env.createResult = false →
      (dispatchAction env store).store = store ∧
      (dispatchAction env store).sent = [plainSent approveCreateErrorMsg]) := by
  constructor
  · intro env store h
    simp [dispatchAction, h]
  · intro env store resp p hllm hact hurl hmatch hfail
    simp [dispatchAction, hllm, hact, approveBranch, hurl, hmatch, hfail]

/-- Witness for `llm_failure_and_create_failure_no_mutation` at concrete
inputs. -/
theorem llm_failure_and_create_failure_no_mutation_witness :
    ((dispatchAction env5 emptyStore).store = emptyStore ∧
      (dispatchAction env5 emptyStore).sent = [plainSent techDifficultyMsg]) ∧
    ((dispatchAction apFailEnv emptyStore).store = emptyStore ∧
      (dispatchAction apFailEnv emptyStore).sent =
        [plainSent approveCreateErrorMsg]) :=
  ⟨⟨(llm_failure_and_create_failure_no_mutation.1 env5 emptyStore rfl).1,
    (llm_failure_and_create_failure_no_mutation.1 env5 emptyStore rfl).2.1⟩,
   ⟨(llm_failure_and_create_failure_no_mutation.2 apFailEnv emptyStore
      { action := "approve",
        data := { project := some "Vexia", title := some "T" } } "Vexia"
      (by rfl) (by rfl) (by decide) (by decide) (by decide)).1,
    (llm_failure_and_create_failure_no_mutation.2 apFailEnv emptyStore
      { action := "approve",
        data := { project := some "Vexia", title := some "T" } } "Vexia"
      (by rfl) (by rfl) (by decide) (by decide) (by decide)).2⟩⟩

/-! ## Claim C7: create_task failure counting and fallback -/

/-- C7: when `create_task`'s Notion creation fails, the first consecutive
failure keeps the thread's pending record, increments `notion_errors` to 1
and sends the retry-encouraging error; at the threshold of 2 the manual
fallback message (external form link) is sent and the error count is reset
to 0. -/
theorem create_task_failure_escalation :
    (∀ (env : Env) (store : StateStore) (resp : LlmResp) (prev : ThreadRecord),
      env.llm1 = some resp → resp.action = "create_task" →
      optTruthy (match_project_option resp.data.project env.projectOptions)
        = true →
      optTruthy resp.data.title = true →
      optTruthy env.createResult = false →
      get_thread_state store env.threadId = prev →
      prev.isEmptyRec = false →
      prev.notion_errors.getD 0 = 0 →
      (dispatchAction env store).sent = [plainSent createTaskErrorMsg] ∧
      (dispatchAction env store).store (toKey env.threadId) =
        some { prev with notion_errors := some 1,
                         updated_at := some env.now }) ∧
    (∀ (env : Env) (store : StateStore) (resp : LlmResp),
      env.llm1 = some resp → resp.action = "create_task" →
      optTruthy (match_project_option resp.data.project env.projectOptions)
        = true →
      optTruthy resp.data.title = true →
      optTruthy env.createResult = false →
      (get_thread_state store env.threadId).notion_errors.getD 0 = 1 →
      (dispatchAction env store).sent = [plainSent manualFallbackMsg] ∧
      (dispatchAction env store).store (toKey env.threadId) =
        some { state := some "waiting_edit", notion_url := none,
               notion_errors := some 0, updated_at := some env.now }) := by
  constructor
  · intro env store resp prev hllm hact hmatch htitle hfail hget hne herr
    simp [dispatchAction, hllm, hact, createTaskBranch, hmatch, htitle, hfail,
      hget, hne, herr, set_thread_state]
  · intro env store resp hllm hact hmatch htitle hfail herr
    simp [dispatchAction, hllm, hact, createTaskBranch, hmatch, htitle, hfail,
      herr, set_thread_state]

/-- Witness for `create_task_failure_escalation` at concrete inputs. -/
theorem create_task_failure_escalation_witness :
    ((dispatchAction ctFailEnv pendingStore).sent
        = [plainSent createTaskErrorMsg] ∧
      (dispatchAction ctFailEnv pendingStore).store "5" =
        some { state := some "waiting_task_details", notion_url := none,
               notion_errors := some 1, updated_at := some "t1" }) ∧
    ((dispatchAction ctFailEnv pendingStoreErr1).sent
        = [plainSent manualFallbackMsg] ∧
      (dispatchAction ctFailEnv pendingStoreErr1).store "5" =
        some { state := some "waiting_edit", notion_url := none,
               notion_errors := some 0, updated_at := some "t1" }) :=
  ⟨(create_task_failure_escalation.1 ctFailEnv pendingStore
      { action := "create_task",
        data := { project := some "Vexia", title := some "T" } }
      { state := some "waiting_task_details", updated_at := some "t0" }
      (by rfl) (by rfl) (by decide) (by decide) (by decide) (by decide)
      (by decide) (by decide)),
   (create_task_failure_escalation.2 ctFailEnv pendingStoreErr1
      { action := "create_task",
        data := { project := some "Vexia", title := some "T" } }
      (by rfl) (by rfl) (by decide) (by decide) (by decide) (by decide))⟩

/-! ## Claim C8: delete_history -/

/-- C8 counterexample: when both the bulk delete and the fallback purge
fail, the exception propagates out of the handler before
`_clear_thread_state` runs — the thread's state is not cleared, so
transport failures can prevent state clearing. -/
theorem delete_history_purge_failure_counterexample :
    (handle delFailEnv pendingStore).raised = true ∧
    (handle delFailEnv pendingStore).store "5" =
      some { state := some "waiting_task_details", notion_url := none,
             notion_errors := none, updated_at := some "t0" } ∧
    (handle delFailEnv pendingStore).deletedIds = [] := by
  decide

/-- C8 (amended): on `delete_history` the handler deletes every non-starter
message among the newest 100 fetched (bulk delete, falling back to a
filtered purge when the bulk delete fails) and then clears the thread's
state — except that when the fallback purge itself fails the exception
propagates and the state is not cleared. -/
theorem delete_history_clears_unless_purge_fails :
    ∀ (env : Env) (store : StateStore) (resp : LlmResp),
      env.llm1 = some resp → resp.action = "delete_history" →
      (dispatchAction env store).sent = [plainSent cleaningMsg] ∧
      (dispatchAction env store).creates = [] ∧
      (((env.history.take 100).filter (fun m => m.id ≠ env.threadId)).map
          Msg.id = [] →
        (dispatchAction env store).store (toKey env.threadId) = none ∧
        (dispatchAction env store).deletedIds = [] ∧
        (dispatchAction env store).raised = false) ∧
      (∀ ids,
        ((env.history.take 100).filter (fun m => m.id ≠ env.threadId)).map
          Msg.id = ids →
        ids ≠ [] → (env.deleteOk = true ∨ env.purgeOk = true) →
        (dispatchAction env store).store (toKey env.threadId) = none ∧
        (dispatchAction env store).deletedIds = ids ∧
        (dispatchAction env store).raised = false) ∧
      (((env.history.take 100).filter (fun m => m.id ≠ env.threadId)).map
          Msg.id ≠ [] →
        env.deleteOk = false → env.purgeOk = false →
        (dispatchAction env store).store = store ∧
        (dispatchAction env store).deletedIds = [] ∧
        (dispatchAction env store).raised = true) := by
  intro env store resp hllm hact
  have hb : dispatchAction env store = deleteHistoryBranch env store := by
    simp [dispatchAction, hllm, hact]
  rw [hb]
  refine ⟨?_, ?_, ?_, ?_, ?_⟩
  · simp only [deleteHistoryBranch]
    split
    · rfl
    · split
      · rfl
      · split
        · rfl
        · rfl
  · simp only [deleteHistoryBranch]
    split
    · rfl
    · split
      · rfl
      · split
        · rfl
        · rfl
  · intro hemp
    simp only [deleteHistoryBranch]
    rw [hemp]
    simp [clear_thread_state]
  · intro ids hids hne hok
    have hbool : ids.isEmpty = false := by
      cases ids with
      | nil => exact absurd rfl hne
      | cons a t => rfl
    simp only [deleteHistoryBranch]
    rw [hids]
    simp only [hbool]
    rcases hok with hd | hp
    · simp [hd, clear_thread_state]
    · cases hdel : env.deleteOk <;> simp [hdel, hp, clear_thread_state]
  · intro hne hd hp
    have hbool : (((env.history.take 100).filter
        (fun m => m.id ≠ env.threadId)).map Msg.id).isEmpty = false := by
      cases hcase : ((env.history.take 100).filter
          (fun m => m.id ≠ env.threadId)).map Msg.id with
      | nil => exact absurd hcase hne
      | cons a t => rfl
    simp only [deleteHistoryBranch, hbool, hd, hp]
    simp

/-- Witness for `delete_history_clears_unless_purge_fails`: the bulk delete
fails, the purge succeeds, and the state is cleared. -/
theorem delete_history_clears_unless_purge_fails_witness :
    (dispatchAction delPurgeEnv pendingStore).store (toKey 5) = none ∧
    (dispatchAction delPurgeEnv pendingStore).deletedIds = [9] ∧
    (dispatchAction delPurgeEnv pendingStore).raised = false :=
  (delete_history_clears_unless_purge_fails delPurgeEnv pendingStore
    { action := "delete_history" } (by rfl) rfl).2.2.2.1 [9]
    (by decide) (by decide) (Or.inr rfl)

/-! ## Claim C9: recovery priority of the CSV mapping -/

/-- C9: for a thread whose persisted state resolves to `init`, when the
history scan would recover `waiting_task_details` but the CSV mapping holds
a (non-empty) task reference, the turn ends with the thread persisted as
`approved` carrying the mapped reference, before the classifier is ever
invoked and with no reply and no Task Store call — the external mapping
overrides the history-scan candidate. -/
theorem recovery_csv_overrides_history (env : Env) (store : StateStore)
    (hinit : (get_thread_state store env.threadId).state.getD "init" = "init")
    (hrec : recover_state_from_history env.history = "waiting_task_details")
    (u : String) (hcsv : env.csvUrl = some u) (hu : u ≠ "") :
    (handle env store).store (toKey env.threadId) =
      some { state := some "approved", notion_url := some u,
             notion_errors := none, updated_at := some env.now } ∧
    (handle env store).llmCalled = false ∧
    (handle env store).sent = [] ∧
    (handle env store).creates = [] := by
  simp [handle, hinit, handleFromInit, initBlock, hrec, hcsv, optTruthy, hu,
    noopResult, set_thread_state]

/-- Witness for `recovery_csv_overrides_history` at concrete inputs. -/
theorem recovery_csv_overrides_history_witness :
    (handle c9env emptyStore).store (toKey 7) =
      some { state := some "approved",
             notion_url := some "https://notion.so/mapped",
             notion_errors := none, updated_at := some "t2" } ∧
    (handle c9env emptyStore).llmCalled = false :=
  ⟨(recovery_csv_overrides_history c9env emptyStore (by decide) (by decide)
      "https://notion.so/mapped" (by rfl) (by decide)).1,
   (recovery_csv_overrides_history c9env emptyStore (by decide) (by decide)
      "https://notion.so/mapped" (by rfl) (by decide)).2.1⟩

/-! ## Claim C10: the default title -/

/-- C10: a missing title blocks neither the `approve` path nor the
`validate_edit` path — both create the Notion record with the fixed default
title (the source literal `defaultDesignTitle`) — while the `create_task`
action performs no creation and re-prompts for the title instead (when its
project matched). -/
theorem missing_title_default_and_reprompt :
    (∀ (env : Env) (store : StateStore) (resp : LlmResp) (p : String),
      env.llm1 = some resp → resp.action = "approve" →
      resp.data.title = none →
      optTruthy (get_thread_state store env.threadId).notion_url = false →
      match_project_option resp.data.project env.projectOptions = some p →
      (dispatchAction env store).creates.map CreateCall.title
        = [defaultDesignTitle]) ∧
    (∀ (env : Env) (store : StateStore) (resp : LlmResp) (resp2 : LlmResp2)
        (sc p : String),
      env.llm1 = some resp → resp.action = "validate_edit" →
      env.starterContent = some sc → env.llm2 = some resp2 →
      resp2.es_valido = true → resp2.data.title = none →
      match_project_option resp2.data.project env.projectOptions = some p →
      (dispatchAction env store).creates.map CreateCall.title
        = [defaultDesignTitle]) ∧
    (∀ (env : Env) (store : StateStore) (resp : LlmResp),
      env.llm1 = some resp → resp.action = "create_task" →
      resp.data.title = none →
      (dispatchAction env store).creates = [] ∧
      (optTruthy (match_project_option resp.data.project env.projectOptions)
          = true →
        (dispatchAction env store).sent = [plainSent titleRepromptMsg])) := by
  refine ⟨?_, ?_, ?_⟩
  · intro env store resp p hllm hact htitle hurl hmatch
    simp only [dispatchAction, hllm, hact, approveBranch, hurl, hmatch, htitle]
    cases hcr : optTruthy env.createResult <;> simp [hcr]
  · intro env store resp resp2 sc p hllm hact hsc hl2 hval htitle2 hmatch
    simp [dispatchAction, hllm, hact, validateEditBranch, hsc, hl2, hval,
      hmatch, htitle2]
  · intro env store resp hllm hact htitle
    have hb : dispatchAction env store = createTaskBranch env store resp := by
      simp [dispatchAction, hllm, hact]
    rw [hb]
    constructor
    · simp [createTaskBranch, htitle, optTruthy]
      split <;> rfl
    · intro hm
      cases hmo : match_project_option resp.data.project env.projectOptions with
      | none =>
        rw [hmo] at hm
        exact absurd hm (by simp [optTruthy])
      | some s =>
        rw [hmo] at hm
        have hs : s ≠ "" := by simpa [optTruthy] using hm
        simp [createTaskBranch, htitle, optTruthy, hmo, hs]

/-- Witness for `missing_title_default_and_reprompt` at concrete inputs. -/
theorem missing_title_default_and_reprompt_witness :
    (dispatchAction apNoTitleEnv emptyStore).creates.map CreateCall.title
      = [defaultDesignTitle] ∧
    (dispatchAction veNoTitleEnv emptyStore).creates.map CreateCall.title
      = [defaultDesignTitle] ∧
    (dispatchAction ctNoTitleEnv emptyStore).creates = [] ∧
    (dispatchAction ctNoTitleEnv emptyStore).sent
      = [plainSent titleRepromptMsg] :=
  ⟨missing_title_default_and_reprompt.1 apNoTitleEnv emptyStore
    { action := "approve", data := { project := some "Vexia" } } "Vexia"
    (by rfl) (by rfl) (by rfl) (by decide) (by decide),
   missing_title_default_and_reprompt.2.1 veNoTitleEnv emptyStore
    { action := "validate_edit" }
    { es_valido := true, feedback := "ok", data := { project := some "Vexia" } }
    "S" "Vexia" (by rfl) (by rfl) (by rfl) (by rfl) (by rfl) (by rfl)
    (by decide),
   (missing_title_default_and_reprompt.2.2 ctNoTitleEnv emptyStore
    { action := "create_task", data := { project := some "Vexia" } }
    (by rfl) (by rfl) (by rfl)).1,
   (missing_title_default_and_reprompt.2.2 ctNoTitleEnv emptyStore
    { action := "create_task", data := { project := some "Vexia" } }
    (by rfl) (by rfl) (by rfl)).2 (by decide)⟩
